import Mathlib

/-!
Verification of the Arduino serial protocol client
(`RoomServer/arduino_serial_client.py`) of the SmartRoomManager repository.

The client is embedded shallowly:
* text lines are `List Char`; Python's `str.split(sep, maxsplit)` and
  `str.strip()` are reimplemented as `pySplit` and `stripL`;
* `time.monotonic()` values are natural numbers (milliseconds), so the
  0.2 s throttle becomes 200 and `alive_timeout_s` etc. are `Nat` fields
  of a `Config`;
* the mutable object state guarded by `self._lock` becomes the record
  `ClientState`; each method becomes a function
  `ClientState → ... → ClientState × List SerialEvent` returning the
  events published on the bus;
* the thread interleavings of `send_cmd` callers are modelled by an
  explicit labelled transition system (`CorrState` / `cApply`).
-/

namespace SmartRoom

/-- Python `str.split(",", maxsplit)`: `n` is the number of splits still
allowed, `acc` the (reversed) chars of the chunk being built. -/
def pySplitAux : Nat → List Char → List Char → List (List Char)
  | _, acc, [] => [acc.reverse]
  | n, acc, c :: cs =>
    if c = ',' ∧ n ≠ 0 then acc.reverse :: pySplitAux (n - 1) [] cs
    else pySplitAux n (c :: acc) cs

/-- Python `line.split(",", maxsplit)`. -/
def pySplit (maxsplit : Nat) (line : List Char) : List (List Char) :=
  pySplitAux maxsplit [] line

/-- Python `str.strip()` (whitespace from both ends). -/
def stripL (cs : List Char) : List Char :=
  ((cs.dropWhile Char.isWhitespace).reverse.dropWhile Char.isWhitespace).reverse

/-- `startsWithL pat l` is Python `l.startswith(pat)`. -/
def startsWithL : List Char → List Char → Bool
  | [], _ => true
  | _ :: _, [] => false
  | p :: ps, c :: cs => p = c && startsWithL ps cs

/-- Python `int(typ)` for a digit string. -/
def digitsToNat (cs : List Char) : Nat :=
  cs.foldl (fun n c => n * 10 + (c.toNat - 48)) 0

/-- `int(typ) if typ.isdigit() else None` (Python `isdigit` is false on `""`). -/
def mkLogType (typ : List Char) : Option Nat :=
  if typ ≠ [] ∧ typ.all Char.isDigit then some (digitsToNat typ) else none

/-- Python `s or None` for strings: `None` when empty. -/
def optOfStr (cs : List Char) : Option (List Char) :=
  if cs = [] then none else some cs

/-- `SerialEventType` of the source. -/
inductive EvType
  | log | ui | sensor | rsp | raw | linkUp | linkDown | error
  deriving DecidableEq, Repr, Inhabited

/-- `SerialEvent` dataclass; unset optional fields default to `none`. -/
structure SerialEvent where
  type : EvType
  ts : Nat
  raw : List Char
  module : Option (List Char) := none
  log_type : Option Nat := none
  text : Option (List Char) := none
  sensor_name : Option (List Char) := none
  sensor_value : Option (List Char) := none
  component_name : Option (List Char) := none
  component_value : Option (List Char) := none
  deriving DecidableEq, Repr, Inhabited

/-- Constructor arguments of `ArduinoSerialClient` that govern timing.
All times in milliseconds. -/
structure Config where
  ping_interval : Nat := 1000
  alive_timeout : Nat := 3000
  deriving Repr

/-- The lock-guarded mutable state of `ArduinoSerialClient`, plus a ghost
field `clock` recording the time of the last performed operation (the
Python code reads `time.monotonic()`, which is non-decreasing). -/
structure ClientState where
  is_open : Bool
  alive : Bool
  last_err : List Char
  last_rx_at : Nat
  last_tx_at : Nat
  last_alive_ack_at : Nat
  rx_lines : Nat
  tx_lines : Nat
  last_alive_check : Nat
  cmd_waiting : Bool
  cmd_reply : Option (List Char)
  clock : Nat
  deriving DecidableEq, Repr

/-- The field values set by `__init__`. -/
def initState : ClientState :=
  { is_open := false, alive := false, last_err := [], last_rx_at := 0,
    last_tx_at := 0, last_alive_ack_at := 0, rx_lines := 0, tx_lines := 0,
    last_alive_check := 0, cmd_waiting := false, cmd_reply := none, clock := 0 }

def pAliveLine : List Char := String.toList "P,0,ALIVE"

/-- `ArduinoSerialClient._compute_alive_locked`. -/
def compute_alive_locked (cfg : Config) (s : ClientState) (now : Nat) : Bool :=
  s.is_open && decide (0 < s.last_alive_ack_at)
    && decide (now - s.last_alive_ack_at ≤ cfg.alive_timeout)

/-- `ArduinoSerialClient._maybe_emit_link_state`. -/
def maybe_emit_link_state (cfg : Config) (s : ClientState) (now : Nat) :
    ClientState × List SerialEvent :=
  if now - s.last_alive_check < 200 then (s, [])
  else
    let s1 := { s with last_alive_check := now }
    let was_alive := s1.alive
    let alive_now := compute_alive_locked cfg s1 now
    let s2 := { s1 with alive := alive_now }
    if alive_now && !was_alive then
      (s2, [{ type := .linkUp, ts := now, raw := String.toList "LINK_UP" }])
    else if !alive_now && was_alive then
      (s2, [{ type := .linkDown, ts := now, raw := String.toList "LINK_DOWN" }])
    else (s2, [])

/-- Events published for an `L,`-prefixed line (the `L,` branch of
`_route_line`, which never changes the client state). -/
def lLineEvents (line : List Char) (now : Nat) : List SerialEvent :=
  let parts := pySplit 4 line
  if 4 ≤ parts.length then
    let typ := parts.getD 1 []
    let md := parts.getD 2 []
    let text := parts.getD 3 [] ++
      (if 4 < parts.length then ',' :: parts.getD 4 [] else [])
    [({ type := .log, ts := now, raw := line, module := some md,
        log_type := mkLogType typ, text := some text } : SerialEvent)] ++
    (if md = String.toList "SENS" ∧ 4 ≤ parts.length then
      [{ type := .sensor, ts := now, raw := line, module := some md,
         log_type := mkLogType typ, text := some text,
         sensor_name := optOfStr (stripL (parts.getD 3 [])),
         sensor_value := optOfStr
           (if 4 < parts.length then stripL (parts.getD 4 []) else []) }]
     else []) ++
    (if md = String.toList "UI" ∧ 4 ≤ parts.length then
      [{ type := .ui, ts := now, raw := line, module := some md,
         log_type := mkLogType typ, text := some text,
         component_name := optOfStr (stripL (parts.getD 3 [])),
         component_value := optOfStr
           (if 4 < parts.length then stripL (parts.getD 4 []) else []) }]
     else [])
  else [{ type := .log, ts := now, raw := line }]

/-- `ArduinoSerialClient._route_line`: classify one decoded line, update
state, and return the published events in order. -/
def route_line (s : ClientState) (line : List Char) (now : Nat) :
    ClientState × List SerialEvent :=
  if line = pAliveLine then
    ({ s with last_alive_ack_at := now },
     [{ type := .raw, ts := now, raw := line }])
  else if startsWithL (String.toList "L,") line then
    (s, lLineEvents line now)
  else if startsWithL (String.toList "R,") line then
    (if s.cmd_waiting ∧ s.cmd_reply = none then { s with cmd_reply := some line }
     else s,
     [{ type := .rsp, ts := now, raw := line }])
  else (s, [{ type := .raw, ts := now, raw := line }])

/-! ## `send_cmd`

`send_cmd` runs on the caller's thread; its interaction with the reader
thread is abstracted by two oracles: `WaitOutcome` tells whether the
busy-wait loop found the slot free before the caller's own timeout, and
`ReplyOutcome` tells whether a reply line reached `_cmd_reply` before the
deadline (and which line). `send_cmd_inner` is the body of the `try:`
block with `raise CommandError(msg)` as `Except.error msg`; `send_cmd`
adds the enclosing `except Exception: print(e); return None`, so the
caller observes `Option (List Char)`. Both also return the list of items
put on the tx queue. -/

inductive WaitOutcome
  | freed            -- the busy-wait loop observed `_cmd_waiting == False`
  | heldPastTimeout  -- the slot stayed taken past the caller's timeout
  deriving DecidableEq, Repr

inductive ReplyOutcome
  | reply (l : List Char)  -- `_cmd_reply` was set to `l` before the deadline
  | noReply                -- deadline elapsed with `_cmd_reply` still `None`
  deriving DecidableEq, Repr

/-- The reply-shape test of `send_cmd`
(`len(parts) < 2 or parts[0] != "R"` after `reply.split(",", 2)`). -/
def replyBadShape (reply : List Char) : Bool :=
  let parts := pySplit 2 reply
  decide (parts.length < 2) || decide (parts.getD 0 [] ≠ String.toList "R")

/-- Reply parsing of `send_cmd` (lines 266-279): split on the first two
commas, reject a shape that is not `R,<code>[,...]`, then return the
stripped message (placeholder `"OK"`/`"ERROR"` when empty) according to
the code field. -/
def parse_reply (reply : List Char) : Except (List Char) (List Char) :=
  let parts := pySplit 2 reply
  if replyBadShape reply then .error (String.toList "BAD_REPLY")
  else
    let code := stripL (parts.getD 1 [])
    let msg := if 3 ≤ parts.length then stripL (parts.getD 2 []) else []
    if code = String.toList "0" then
      .ok (if msg = [] then String.toList "OK" else msg)
    else .error (if msg = [] then String.toList "ERROR" else msg)

/-- Body of the `try:` block of `ArduinoSerialClient.send_cmd`. -/
def send_cmd_inner (s : ClientState) (line : List Char)
    (w : WaitOutcome) (r : ReplyOutcome) :
    Except (List Char) (List Char) × List (List Char) :=
  if line = [] then (.error (String.toList "EMPTY"), [])
  else if s.is_open = false then (.error (String.toList "DISCONNECTED"), [])
  else if s.cmd_waiting = true ∧ w = .heldPastTimeout then
    (.error (String.toList "BUSY"), [])
  else
    let enq := [String.toList "CMD," ++ line]
    match r with
    | .noReply => (.error (String.toList "TIMEOUT"), enq)
    | .reply reply => (parse_reply reply, enq)

/-- `ArduinoSerialClient.send_cmd` as the caller sees it: the blanket
`except Exception as e: print(e); return None` turns every raised
`CommandError` into the return value `None`. -/
def send_cmd (s : ClientState) (line : List Char)
    (w : WaitOutcome) (r : ReplyOutcome) :
    Option (List Char) × List (List Char) :=
  match send_cmd_inner s line w r with
  | (.ok m, enq) => (some m, enq)
  | (.error _, enq) => (none, enq)

/-! ## Supervisor-level operations and the reachable-state machine -/

/-- `ArduinoSerialClient._open_serial`, success branch. -/
def open_serial_ok (s : ClientState) (now : Nat) : ClientState :=
  { s with is_open := true, last_err := [], last_rx_at := 0,
           last_tx_at := now, last_alive_ack_at := 0, rx_lines := 0,
           tx_lines := 0, alive := false, last_alive_check := 0 }

/-- `ArduinoSerialClient._open_serial`, failure branch. -/
def open_serial_fail (s : ClientState) (now : Nat) (emsg : List Char) :
    ClientState × List SerialEvent :=
  ({ s with is_open := false, alive := false, last_err := emsg },
   [{ type := .error, ts := now, raw := emsg }])

/-- `ArduinoSerialClient._close_serial` (the cv notify and the handle close
have no modelled effect). -/
def close_serial (s : ClientState) (now : Nat) : ClientState × List SerialEvent :=
  let was_open := s.is_open
  let was_alive := s.alive
  let s' := { s with is_open := false, alive := false }
  (s', if was_open && was_alive then
        [{ type := .linkDown, ts := now, raw := String.toList "LINK_DOWN" }]
       else [])

/-- One iteration of `_reader_loop` for a decoded non-empty line:
rx bookkeeping, `_route_line`, then `_maybe_emit_link_state`. -/
def reader_line (cfg : Config) (s : ClientState) (line : List Char) (now : Nat) :
    ClientState × List SerialEvent :=
  let s1 := { s with last_rx_at := now, rx_lines := s.rx_lines + 1 }
  let (s2, evs1) := route_line s1 line now
  let (s3, evs2) := maybe_emit_link_state cfg s2 now
  (s3, evs1 ++ evs2)

/-- The tx bookkeeping of a successful `_safe_write`. -/
def tx_done (s : ClientState) (now : Nat) : ClientState :=
  { s with last_tx_at := now, tx_lines := s.tx_lines + 1 }

/-- The operations that touch the lock-guarded state, as performed by the
supervisor, reader, writer and `send_cmd` threads. -/
inductive Op
  | openOk
  | openFail (emsg : List Char)
  | close
  | readLine (line : List Char)
  | maybeEmit
  | txDone
  | cmdAcquire (line : List Char)  -- `send_cmd` takes the slot
  | cmdRelease                     -- `send_cmd` frees the slot on exit
  | stopAll
  deriving DecidableEq, Repr

/-- Effect of one operation performed at time `now`; the ghost `clock` is
advanced to `now`. -/
def applyOp (cfg : Config) (s : ClientState) (op : Op) (now : Nat) :
    ClientState × List SerialEvent :=
  let (s', evs) :=
    match op with
    | .openOk => (open_serial_ok s now, [])
    | .openFail emsg => open_serial_fail s now emsg
    | .close => close_serial s now
    | .readLine line => reader_line cfg s line now
    | .maybeEmit => maybe_emit_link_state cfg s now
    | .txDone => (tx_done s now, [])
    | .cmdAcquire _ => ({ s with cmd_waiting := true, cmd_reply := none }, [])
    | .cmdRelease => ({ s with cmd_waiting := false, cmd_reply := none }, [])
    | .stopAll =>
      let (s1, evs) := close_serial s now
      ({ s1 with alive := false }, evs)
  ({ s' with clock := now }, evs)

/-- Which operations are possible at `s` at time `now`: time is monotonic
and positive, and the supervisor only attempts an open while the port is
closed (`_supervisor_loop` reopens only after `_close_serial`). -/
def validStep (s : ClientState) (op : Op) (now : Nat) : Bool :=
  decide (s.clock ≤ now) && decide (0 < now) &&
    (match op with
     | .openOk => !s.is_open
     | .openFail _ => !s.is_open
     | _ => true)

/-- Run a timed list of operations, collecting published events. -/
def runOps (cfg : Config) (s : ClientState) : List (Op × Nat) →
    ClientState × List SerialEvent
  | [] => (s, [])
  | (op, now) :: rest =>
    let (s1, evs1) := applyOp cfg s op now
    let (s2, evs2) := runOps cfg s1 rest
    (s2, evs1 ++ evs2)

/-- Validity of a timed operation list from `s`. -/
def validOps (cfg : Config) (s : ClientState) : List (Op × Nat) → Bool
  | [] => true
  | (op, now) :: rest =>
    validStep s op now && validOps cfg (applyOp cfg s op now).1 rest

/-! ## Link-event projections (for the LinkUp/LinkDown alternation) -/

/-- `some true` for a LinkUp event, `some false` for a LinkDown event. -/
def linkTag (e : SerialEvent) : Option Bool :=
  match e.type with
  | .linkUp => some true
  | .linkDown => some false
  | _ => none

/-- The LinkUp/LinkDown subsequence of a published event list. -/
def linksOf (evs : List SerialEvent) : List Bool :=
  evs.filterMap linkTag

/-- `altFromB b l`: starting from liveness value `b`, the link events `l`
strictly alternate (each one flips the previous value). -/
def altFromB : Bool → List Bool → Bool
  | _, [] => true
  | b, x :: xs => (x = !b) && altFromB x xs

/-- Last element of `l`, or `b` when `l` is empty. -/
def lastB (b : Bool) : List Bool → Bool
  | [] => b
  | x :: xs => lastB x xs

/-! ## Writer loop (heartbeat-before-dequeue ordering) -/

/-- The writer thread's only loop-local state: the next heartbeat deadline. -/
structure WriterState where
  next_ping : Nat
  deriving DecidableEq, Repr

/-- One outbound write: a heartbeat `PING` or a dequeued command line. -/
inductive WriteItem
  | ping
  | cmd (text : List Char)
  deriving DecidableEq, Repr

/-- The writes caused by `self._tx_q.get(timeout=0.05)`: none on
`queue.Empty`, one command write otherwise. -/
def cmdQueueOut : Option (List Char) → List WriteItem
  | none => []
  | some t => [.cmd t]

/-- One iteration of `ArduinoSerialClient._writer_loop`: read `now`, write
the heartbeat if due (scheduling the next one), then poll the queue and
write the dequeued item if any. `dq` is the queue poll's outcome. -/
def writer_iter (cfg : Config) (ws : WriterState) (now : Nat)
    (dq : Option (List Char)) : WriterState × List WriteItem :=
  let (ws1, pings) :=
    if ws.next_ping ≤ now then
      ({ next_ping := now + cfg.ping_interval }, [WriteItem.ping])
    else (ws, [])
  (ws1, pings ++ cmdQueueOut dq)

/-- Run successive writer iterations; each input is the iteration's `now`
and its queue poll outcome. Returns all writes in wire order. -/
def writer_run (cfg : Config) (ws : WriterState) :
    List (Nat × Option (List Char)) → List WriteItem
  | [] => []
  | (now, dq) :: rest =>
    let (ws1, w) := writer_iter cfg ws now dq
    w ++ writer_run cfg ws1 rest

/-! ## Command correlator as a labelled transition system

Each concurrent `send_cmd` caller is a `CPhase`; the shared fields
`_cmd_waiting` / `_cmd_reply` and the callers form `CorrState`. Every
label is one atomic step performed while holding `self._cmd_cv`'s lock
(the condition variable releases the lock while waiting, so loop-body
checks and assignments are lock-atomic). `cApply` returns `none` when the
label's guard does not hold in the current state. -/

/-- Result of a finished `send_cmd` caller in the correlator model. -/
inductive CRes
  | busy
  | timedOut
  | gotReply (l : List Char)
  deriving DecidableEq, Repr

/-- Phase of one `send_cmd` caller: waiting for the single-flight slot
(with its `start_wait` and its own timeout), holding the slot (with its
reply deadline), or finished. -/
inductive CPhase
  | waitingSlot (startWait : Nat) (timeout : Nat)
  | holding (deadline : Nat)
  | done (res : CRes)
  deriving DecidableEq, Repr

/-- The `_cmd_cv`-guarded shared fields plus the per-caller phases. -/
structure CorrState where
  cmd_waiting : Bool
  cmd_reply : Option (List Char)
  callers : List CPhase
  deriving DecidableEq, Repr

def initCorr : CorrState :=
  { cmd_waiting := false, cmd_reply := none, callers := [] }

/-- Lock-atomic steps of the correlator. -/
inductive CLabel
  | arrive (startWait timeout : Nat)  -- a new caller enters the cv block
  | busyFail (i now : Nat)            -- wait loop: slot taken past own timeout
  | acquire (i now : Nat)             -- wait loop exits: slot observed free, taken
  | replyArrive (l : List Char)       -- `_route_line` stores a reply line
  | replyTaken (i : Nat)              -- holder consumes the reply, frees slot
  | timeoutFire (i now : Nat)         -- holder's deadline passed, frees slot
  deriving DecidableEq, Repr

def isHolding : CPhase → Bool
  | .holding _ => true
  | _ => false

/-- Guarded one-step semantics of the correlator, following `send_cmd`
(lines 228-264) and the `R,`-branch of `_route_line` (lines 563-572). -/
def cApply (st : CorrState) : CLabel → Option CorrState
  | .arrive startWait timeout =>
    some { st with callers := st.callers ++ [.waitingSlot startWait timeout] }
  | .busyFail i now =>
    match st.callers[i]? with
    | some (.waitingSlot sw tmo) =>
      if st.cmd_waiting = true ∧ tmo < now - sw then
        some { st with callers := st.callers.set i (.done .busy) }
      else none
    | _ => none
  | .acquire i now =>
    match st.callers[i]? with
    | some (.waitingSlot _ tmo) =>
      if st.cmd_waiting = false then
        some { st with
               cmd_waiting := true
               cmd_reply := none
               callers := st.callers.set i (.holding (now + tmo)) }
      else none
    | _ => none
  | .replyArrive l =>
    if st.cmd_waiting = true ∧ st.cmd_reply = none then
      some { st with cmd_reply := some l }
    else none
  | .replyTaken i =>
    match st.callers[i]?, st.cmd_reply with
    | some (.holding _), some l =>
      some { st with
             cmd_waiting := false
             cmd_reply := none
             callers := st.callers.set i (.done (.gotReply l)) }
    | _, _ => none
  | .timeoutFire i now =>
    match st.callers[i]? with
    | some (.holding d) =>
      if st.cmd_reply = none ∧ d ≤ now then
        some { st with
               cmd_waiting := false
               callers := st.callers.set i (.done .timedOut) }
      else none
    | _ => none

/-- Run a list of correlator steps; `none` when some guard failed. -/
def cRun (st : CorrState) : List CLabel → Option CorrState
  | [] => some st
  | lab :: rest =>
    match cApply st lab with
    | some st' => cRun st' rest
    | none => none

/-- Number of callers currently holding the single-flight slot. -/
def countHolding (cs : List CPhase) : Nat := cs.countP isHolding

/-! ## Invariants -/

/-- Claim C5's invariant: the stored `_alive` flag is `true` only when the
port is open and a heartbeat ack was received (this generation) within
the configured window, measured at the last liveness check. -/
def AliveInv (cfg : Config) (s : ClientState) : Prop :=
  s.alive = true →
    s.is_open = true ∧ 0 < s.last_alive_ack_at ∧
    s.last_alive_check - s.last_alive_ack_at ≤ cfg.alive_timeout

/-- Auxiliary invariant: bookkeeping times never exceed `t`. -/
def TimesLE (s : ClientState) (t : Nat) : Prop :=
  s.last_alive_check ≤ t ∧ s.last_alive_ack_at ≤ t

/-- Invariant of the correlator: at most one caller holds the
single-flight slot, and `_cmd_waiting` is set exactly when one does. -/
def CorrInv (st : CorrState) : Prop :=
  countHolding st.callers ≤ 1 ∧
  (st.cmd_waiting = true ↔ countHolding st.callers = 1)

/-! ## Concrete inputs used by witnesses and counterexamples -/

def defaultCfg : Config := {}

/-- Open at t=1000, then read a heartbeat ack at t=1000. -/
def c5demo : List (Op × Nat) :=
  [(.openOk, 1000), (.readLine pAliveLine, 1000)]

/-- Open, heartbeat ack (LinkUp fires), then close (LinkDown fires). -/
def c8demo : List (Op × Nat) :=
  [(.openOk, 1000), (.readLine pAliveLine, 1000), (.close, 2000)]

/-- Two interleaved callers: the second acquires only after the first's
reply resolves. -/
def c3demo : List CLabel :=
  [.arrive 0 1000, .arrive 0 1000, .acquire 0 100,
   .replyArrive (String.toList "R,0,OK"), .replyTaken 0, .acquire 1 200]

/-- The state `c3demo` ends in. -/
def c3final : CorrState :=
  { cmd_waiting := true, cmd_reply := none,
    callers := [.done (.gotReply (String.toList "R,0,OK")), .holding 1200] }

/-! ## Helper lemmas -/

lemma pySplitAux_zero (acc cs : List Char) :
    pySplitAux 0 acc cs = [acc.reverse ++ cs] := by
  induction cs generalizing acc with
  | nil => simp [pySplitAux]
  | cons c cs ih =>
    simp only [pySplitAux]
    rw [if_neg (by simp)]
    rw [ih (c :: acc)]
    simp

lemma pySplitAux_length_pos (n : Nat) (acc cs : List Char) :
    1 ≤ (pySplitAux n acc cs).length := by
  induction cs generalizing n acc with
  | nil => simp [pySplitAux]
  | cons c cs ih =>
    simp only [pySplitAux]
    split
    · simp
    · exact ih _ _

lemma pySplit_R_line (rest : List Char) :
    pySplit 2 ('R' :: ',' :: rest) = ['R'] :: pySplitAux 1 [] rest := rfl

lemma pySplit_R0_line (msg : List Char) :
    pySplit 2 ('R' :: ',' :: '0' :: ',' :: msg) = [['R'], ['0'], msg] := by
  have h : pySplit 2 ('R' :: ',' :: '0' :: ',' :: msg) =
      ['R'] :: ['0'] :: pySplitAux 0 [] msg := rfl
  rw [h, pySplitAux_zero]
  simp

lemma startsWithL_two {a b : Char} {l : List Char}
    (h : startsWithL [a, b] l = true) : ∃ t, l = a :: b :: t := by
  match l with
  | [] => simp [startsWithL] at h
  | [c] => simp [startsWithL] at h
  | c :: d :: t =>
    simp [startsWithL] at h
    obtain ⟨h1, h2⟩ := h
    subst h1; subst h2
    exact ⟨t, rfl⟩

lemma parse_reply_R0 (msg : List Char) :
    parse_reply ('R' :: ',' :: '0' :: ',' :: msg) =
      .ok (if stripL msg = [] then String.toList "OK" else stripL msg) := by
  have hshape : replyBadShape ('R' :: ',' :: '0' :: ',' :: msg) = false := by
    simp only [replyBadShape, pySplit_R0_line]
    rfl
  simp only [parse_reply, pySplit_R0_line, hshape, Bool.false_eq_true, if_false]
  norm_num [List.getD]
  intro h
  exact absurd rfl h

lemma linksOf_append (a b : List SerialEvent) :
    linksOf (a ++ b) = linksOf a ++ linksOf b := by
  simp [linksOf, List.filterMap_append]

lemma altFromB_append (b : Bool) (l1 l2 : List Bool) :
    altFromB b (l1 ++ l2) = (altFromB b l1 && altFromB (lastB b l1) l2) := by
  induction l1 generalizing b with
  | nil => simp [altFromB, lastB]
  | cons x xs ih => simp [altFromB, lastB, ih, Bool.and_assoc]

lemma lastB_append (b : Bool) (l1 l2 : List Bool) :
    lastB b (l1 ++ l2) = lastB (lastB b l1) l2 := by
  induction l1 generalizing b with
  | nil => simp [lastB]
  | cons x xs ih => simp [lastB, ih]

lemma bool_not_true {b : Bool} (h : (!b) = true) : b = false := by
  cases b
  · rfl
  · cases h

lemma lLineEvents_links (line : List Char) (now : Nat) :
    linksOf (lLineEvents line now) = [] := by
  simp only [lLineEvents]
  split
  · rw [linksOf_append, linksOf_append]
    repeat' split
    all_goals rfl
  · rfl

lemma route_line_fst (s : ClientState) (line : List Char) (now : Nat) :
    (route_line s line now).1 = s ∨
    (route_line s line now).1 = { s with last_alive_ack_at := now } ∨
    (route_line s line now).1 = { s with cmd_reply := some line } := by
  unfold route_line
  split
  · exact Or.inr (Or.inl rfl)
  · split
    · exact Or.inl rfl
    · split
      · dsimp only
        split
        · exact Or.inr (Or.inr rfl)
        · exact Or.inl rfl
      · exact Or.inl rfl

lemma route_line_links (s : ClientState) (line : List Char) (now : Nat) :
    linksOf (route_line s line now).2 = [] := by
  unfold route_line
  split
  · rfl
  · split
    · exact lLineEvents_links line now
    · split
      · rfl
      · rfl

lemma applyOp_readLine_eq (cfg : Config) (s : ClientState) (line : List Char)
    (now : Nat) :
    applyOp cfg s (.readLine line) now =
      ({ (maybe_emit_link_state cfg
            (route_line { s with last_rx_at := now, rx_lines := s.rx_lines + 1 }
              line now).1 now).1 with clock := now },
       (route_line { s with last_rx_at := now, rx_lines := s.rx_lines + 1 }
          line now).2 ++
       (maybe_emit_link_state cfg
          (route_line { s with last_rx_at := now, rx_lines := s.rx_lines + 1 }
            line now).1 now).2) := rfl

lemma runOps_cons (cfg : Config) (s : ClientState) (op : Op) (now : Nat)
    (rest : List (Op × Nat)) :
    runOps cfg s ((op, now) :: rest) =
      ((runOps cfg (applyOp cfg s op now).1 rest).1,
       (applyOp cfg s op now).2 ++
       (runOps cfg (applyOp cfg s op now).1 rest).2) := rfl

lemma maybe_emit_fst (cfg : Config) (s : ClientState) (now : Nat) :
    (maybe_emit_link_state cfg s now).1 = s ∨
    (maybe_emit_link_state cfg s now).1 =
      { s with last_alive_check := now,
               alive := compute_alive_locked cfg s now } := by
  unfold maybe_emit_link_state
  split
  · exact Or.inl rfl
  · dsimp only
    split
    · exact Or.inr rfl
    · split
      · exact Or.inr rfl
      · exact Or.inr rfl

lemma maybe_emit_linkstep (cfg : Config) (s : ClientState) (now : Nat) :
    altFromB s.alive (linksOf (maybe_emit_link_state cfg s now).2) = true ∧
    lastB s.alive (linksOf (maybe_emit_link_state cfg s now).2) =
      (maybe_emit_link_state cfg s now).1.alive := by
  unfold maybe_emit_link_state
  split
  · simp [linksOf, altFromB, lastB]
  · dsimp only
    split
    · rename_i h
      rw [Bool.and_eq_true] at h
      obtain ⟨ha, hw⟩ := h
      have hw' : s.alive = false := bool_not_true hw
      have hl : linksOf
          [({ type := .linkUp, ts := now, raw := String.toList "LINK_UP" } :
            SerialEvent)] = [true] := rfl
      constructor
      · show altFromB s.alive _ = true
        rw [hl, hw']
        rfl
      · show lastB s.alive _ = _
        rw [hl]
        show true = _
        exact ha.symm
    · split
      · rename_i h1 h2
        rw [Bool.and_eq_true] at h2
        obtain ⟨ha, hw⟩ := h2
        have ha' := bool_not_true ha
        have hl : linksOf
            [({ type := .linkDown, ts := now, raw := String.toList "LINK_DOWN" } :
              SerialEvent)] = [false] := rfl
        constructor
        · show altFromB s.alive _ = true
          rw [hl, hw]
          rfl
        · show lastB s.alive _ = _
          rw [hl]
          show false = _
          exact ha'.symm
      · rename_i h1 h2
        constructor
        · rfl
        · show s.alive = _
          cases hA : compute_alive_locked cfg { s with last_alive_check := now } now <;>
            cases hW : s.alive <;> simp_all

lemma maybe_emit_inv (cfg : Config) (s : ClientState) (now : Nat)
    (hA : AliveInv cfg s) (hT : TimesLE s now) :
    AliveInv cfg (maybe_emit_link_state cfg s now).1 ∧
    TimesLE (maybe_emit_link_state cfg s now).1 now := by
  rcases maybe_emit_fst cfg s now with h | h <;> rw [h]
  · exact ⟨hA, hT⟩
  · constructor
    · intro ha
      simp only [compute_alive_locked, Bool.and_eq_true, decide_eq_true_eq] at ha
      exact ⟨ha.1.1, ha.1.2, ha.2⟩
    · exact ⟨Nat.le_refl now, hT.2⟩

lemma route_line_inv (cfg : Config) (s : ClientState) (line : List Char)
    (now : Nat) (hA : AliveInv cfg s) (hT : TimesLE s now) (hn : 0 < now) :
    AliveInv cfg (route_line s line now).1 ∧
    TimesLE (route_line s line now).1 now := by
  rcases route_line_fst s line now with h | h | h <;> rw [h]
  · exact ⟨hA, hT⟩
  · constructor
    · intro ha
      obtain ⟨h1, _, _⟩ := hA ha
      refine ⟨h1, hn, ?_⟩
      have hc := hT.1
      simp only []
      omega
    · exact ⟨hT.1, Nat.le_refl now⟩
  · exact ⟨fun ha => hA ha, hT⟩

lemma applyOp_inv (cfg : Config) (s : ClientState) (op : Op) (now : Nat)
    (hv : validStep s op now = true) (hA : AliveInv cfg s)
    (hT : TimesLE s s.clock) :
    AliveInv cfg (applyOp cfg s op now).1 ∧
    TimesLE (applyOp cfg s op now).1 (applyOp cfg s op now).1.clock := by
  simp only [validStep, Bool.and_eq_true, decide_eq_true_eq] at hv
  obtain ⟨⟨hc, hn⟩, hop⟩ := hv
  have hT' : TimesLE s now := ⟨Nat.le_trans hT.1 hc, Nat.le_trans hT.2 hc⟩
  cases op with
  | openOk =>
    exact ⟨fun ha => absurd ha (by simp [applyOp, open_serial_ok]),
           Nat.zero_le _, Nat.zero_le _⟩
  | openFail emsg =>
    exact ⟨fun ha => absurd ha (by simp [applyOp, open_serial_fail]),
           hT'.1, hT'.2⟩
  | close =>
    exact ⟨fun ha => absurd ha (by simp [applyOp, close_serial]),
           hT'.1, hT'.2⟩
  | stopAll =>
    exact ⟨fun ha => absurd ha (by simp [applyOp, close_serial]),
           hT'.1, hT'.2⟩
  | txDone =>
    exact ⟨fun ha => hA ha, hT'.1, hT'.2⟩
  | cmdAcquire l =>
    exact ⟨fun ha => hA ha, hT'.1, hT'.2⟩
  | cmdRelease =>
    exact ⟨fun ha => hA ha, hT'.1, hT'.2⟩
  | maybeEmit =>
    have h := maybe_emit_inv cfg s now hA hT'
    exact ⟨h.1, h.2⟩
  | readLine line =>
    have h1 : AliveInv cfg { s with last_rx_at := now, rx_lines := s.rx_lines + 1 } := hA
    have hT1 : TimesLE { s with last_rx_at := now, rx_lines := s.rx_lines + 1 } now := hT'
    have h2 := route_line_inv cfg _ line now h1 hT1 hn
    have h3 := maybe_emit_inv cfg _ now h2.1 h2.2
    exact ⟨h3.1, h3.2⟩

lemma runOps_inv (cfg : Config) : ∀ (ops : List (Op × Nat)) (s : ClientState),
    validOps cfg s ops = true → AliveInv cfg s → TimesLE s s.clock →
    AliveInv cfg (runOps cfg s ops).1 ∧
    TimesLE (runOps cfg s ops).1 (runOps cfg s ops).1.clock := by
  intro ops
  induction ops with
  | nil => exact fun s _ hA hT => ⟨hA, hT⟩
  | cons p rest ih =>
    obtain ⟨op, now⟩ := p
    intro s hv hA hT
    simp only [validOps, Bool.and_eq_true] at hv
    obtain ⟨hstep, hrest⟩ := hv
    have h1 := applyOp_inv cfg s op now hstep hA hT
    have h2 := ih (applyOp cfg s op now).1 hrest h1.1 h1.2
    simpa [runOps] using h2

lemma applyOp_linkstep (cfg : Config) (s : ClientState) (op : Op) (now : Nat)
    (hv : validStep s op now = true) (hA : AliveInv cfg s) :
    altFromB s.alive (linksOf (applyOp cfg s op now).2) = true ∧
    lastB s.alive (linksOf (applyOp cfg s op now).2) =
      (applyOp cfg s op now).1.alive := by
  simp only [validStep, Bool.and_eq_true, decide_eq_true_eq] at hv
  obtain ⟨⟨hc, hn⟩, hop⟩ := hv
  cases op with
  | openOk =>
    have hopen : s.is_open = false := bool_not_true hop
    have halive : s.alive = false := by
      cases h : s.alive
      · rfl
      · obtain ⟨h1, _⟩ := hA h
        rw [h1] at hopen
        cases hopen
    simp [applyOp, open_serial_ok, linksOf, altFromB, lastB, halive]
  | openFail emsg =>
    have hopen : s.is_open = false := bool_not_true hop
    have halive : s.alive = false := by
      cases h : s.alive
      · rfl
      · obtain ⟨h1, _⟩ := hA h
        rw [h1] at hopen
        cases hopen
    simp [applyOp, open_serial_fail, linksOf, linkTag, altFromB, lastB, halive]
  | close =>
    cases h : s.alive
    · simp [applyOp, close_serial, linksOf, altFromB, lastB, h]
    · have hopen := (hA h).1
      simp [applyOp, close_serial, linksOf, linkTag, altFromB, lastB, h, hopen]
  | stopAll =>
    cases h : s.alive
    · simp [applyOp, close_serial, linksOf, altFromB, lastB, h]
    · have hopen := (hA h).1
      simp [applyOp, close_serial, linksOf, linkTag, altFromB, lastB, h, hopen]
  | txDone => simp [applyOp, tx_done, linksOf, altFromB, lastB]
  | cmdAcquire l => simp [applyOp, linksOf, altFromB, lastB]
  | cmdRelease => simp [applyOp, linksOf, altFromB, lastB]
  | maybeEmit =>
    have h := maybe_emit_linkstep cfg s now
    exact ⟨h.1, h.2⟩
  | readLine line =>
    have e1 := route_line_links
      { s with last_rx_at := now, rx_lines := s.rx_lines + 1 } line now
    have halive2 :
        (route_line { s with last_rx_at := now, rx_lines := s.rx_lines + 1 }
          line now).1.alive = s.alive := by
      rcases route_line_fst
        { s with last_rx_at := now, rx_lines := s.rx_lines + 1 } line now
        with h | h | h <;> rw [h]
    have ms := maybe_emit_linkstep cfg
      (route_line { s with last_rx_at := now, rx_lines := s.rx_lines + 1 }
        line now).1 now
    rw [halive2] at ms
    rw [applyOp_readLine_eq]
    dsimp only
    rw [linksOf_append, e1, List.nil_append]
    exact ⟨ms.1, ms.2⟩

lemma runOps_linkstep (cfg : Config) : ∀ (ops : List (Op × Nat)) (s : ClientState),
    validOps cfg s ops = true → AliveInv cfg s → TimesLE s s.clock →
    altFromB s.alive (linksOf (runOps cfg s ops).2) = true ∧
    lastB s.alive (linksOf (runOps cfg s ops).2) = (runOps cfg s ops).1.alive := by
  intro ops
  induction ops with
  | nil =>
    intro s _ _ _
    exact ⟨rfl, rfl⟩
  | cons p rest ih =>
    obtain ⟨op, now⟩ := p
    intro s hv hA hT
    simp only [validOps, Bool.and_eq_true] at hv
    obtain ⟨hstep, hrest⟩ := hv
    have hinv := applyOp_inv cfg s op now hstep hA hT
    have h1 := applyOp_linkstep cfg s op now hstep hA
    have h2 := ih (applyOp cfg s op now).1 hrest hinv.1 hinv.2
    rw [runOps_cons]
    dsimp only
    constructor
    · rw [linksOf_append, altFromB_append, h1.1, h1.2, Bool.true_and]
      exact h2.1
    · rw [linksOf_append, lastB_append, h1.2]
      exact h2.2

lemma initState_aliveInv (cfg : Config) : AliveInv cfg initState := by
  intro h
  simp [initState] at h

lemma countP_set_eq (p : CPhase → Bool) :
    ∀ (l : List CPhase) (i : Nat) (a b : CPhase), l[i]? = some a →
    (l.set i b).countP p + (if p a then 1 else 0) =
      l.countP p + (if p b then 1 else 0) := by
  intro l
  induction l with
  | nil => intro i a b h; simp at h
  | cons x xs ih =>
    intro i a b h
    cases i with
    | zero =>
      rw [List.getElem?_cons_zero] at h
      injection h with h''
      subst h''
      show (b :: xs).countP p + _ = (x :: xs).countP p + _
      simp only [List.countP_cons]
      cases hpx : p x <;> cases hpb : p b <;> simp [hpx, hpb]
    | succ n =>
      rw [List.getElem?_cons_succ] at h
      have hih := ih n a b h
      show (x :: xs.set n b).countP p + _ = (x :: xs).countP p + _
      simp only [List.countP_cons]
      cases hpa : p a <;> cases hpb : p b <;>
        simp [hpa, hpb] at hih ⊢ <;> omega

lemma countP_pos_of_get? (p : CPhase → Bool) (l : List CPhase) (i : Nat)
    (a : CPhase) (h : l[i]? = some a) (hp : p a = true) :
    1 ≤ l.countP p := by
  induction l generalizing i with
  | nil => simp at h
  | cons x xs ih =>
    cases i with
    | zero =>
      rw [List.getElem?_cons_zero] at h
      injection h with h''
      subst h''
      rw [List.countP_cons, hp]
      simp
    | succ n =>
      rw [List.getElem?_cons_succ] at h
      have hxs := ih n h
      rw [List.countP_cons]
      omega

lemma cApply_inv (st : CorrState) (lab : CLabel) (st' : CorrState)
    (h : cApply st lab = some st') (hI : CorrInv st) : CorrInv st' := by
  obtain ⟨hle, hiff⟩ := hI
  cases lab with
  | arrive sw tmo =>
    simp only [cApply] at h
    injection h with h
    subst h
    constructor
    · simpa [countHolding, List.countP_append, isHolding] using hle
    · simpa [countHolding, List.countP_append, isHolding] using hiff
  | busyFail i now =>
    simp only [cApply] at h
    cases hg : st.callers[i]? with
    | none => simp [hg] at h
    | some ph =>
      cases ph with
      | waitingSlot sw tmo =>
        simp only [hg] at h
        split at h
        · injection h with h
          subst h
          have hcount := countP_set_eq isHolding st.callers i
            (.waitingSlot sw tmo) (.done .busy) hg
          simp [isHolding] at hcount
          constructor
          · show countHolding (st.callers.set i (.done .busy)) ≤ 1
            rw [countHolding] at hle ⊢
            omega
          · show st.cmd_waiting = true ↔
              countHolding (st.callers.set i (.done .busy)) = 1
            rw [countHolding] at hiff ⊢
            rw [hcount]
            exact hiff
        · cases h
      | holding d => simp [hg] at h
      | done r => simp [hg] at h
  | acquire i now =>
    simp only [cApply] at h
    cases hg : st.callers[i]? with
    | none => simp [hg] at h
    | some ph =>
      cases ph with
      | waitingSlot sw tmo =>
        simp only [hg] at h
        split at h
        · rename_i hw
          injection h with h
          subst h
          have hcount := countP_set_eq isHolding st.callers i
            (.waitingSlot sw tmo) (.holding (now + tmo)) hg
          simp [isHolding] at hcount
          have hzero : countHolding st.callers = 0 := by
            rcases Nat.lt_or_ge (countHolding st.callers) 1 with h1 | h1
            · omega
            · exfalso
              have : st.cmd_waiting = true := hiff.mpr (by omega)
              rw [hw] at this
              cases this
          constructor
          · show countHolding (st.callers.set i (.holding (now + tmo))) ≤ 1
            rw [countHolding] at hzero ⊢
            omega
          · show true = true ↔
              countHolding (st.callers.set i (.holding (now + tmo))) = 1
            rw [countHolding] at hzero ⊢
            constructor
            · intro _
              omega
            · intro _; rfl
        · cases h
      | holding d => simp [hg] at h
      | done r => simp [hg] at h
  | replyArrive l =>
    simp only [cApply] at h
    split at h
    · injection h with h
      subst h
      exact ⟨hle, hiff⟩
    · cases h
  | replyTaken i =>
    simp only [cApply] at h
    cases hg : st.callers[i]? with
    | none => simp [hg] at h
    | some ph =>
      cases ph with
      | waitingSlot sw tmo => cases hr : st.cmd_reply <;> simp [hg, hr] at h
      | holding d =>
        cases hr : st.cmd_reply with
        | none => simp [hg, hr] at h
        | some l =>
          simp only [hg, hr] at h
          injection h with h
          subst h
          have hcount := countP_set_eq isHolding st.callers i
            (.holding d) (.done (.gotReply l)) hg
          simp [isHolding] at hcount
          have hpos : 1 ≤ countHolding st.callers :=
            countP_pos_of_get? isHolding st.callers i (.holding d) hg rfl
          constructor
          · show countHolding (st.callers.set i (.done (.gotReply l))) ≤ 1
            rw [countHolding] at hpos hle ⊢
            omega
          · show false = true ↔
              countHolding (st.callers.set i (.done (.gotReply l))) = 1
            rw [countHolding] at hpos hle ⊢
            constructor
            · intro hx; cases hx
            · intro hx; exfalso; omega
      | done r => cases hr : st.cmd_reply <;> simp [hg, hr] at h
  | timeoutFire i now =>
    simp only [cApply] at h
    cases hg : st.callers[i]? with
    | none => simp [hg] at h
    | some ph =>
      cases ph with
      | waitingSlot sw tmo => simp [hg] at h
      | holding d =>
        simp only [hg] at h
        split at h
        · injection h with h
          subst h
          have hcount := countP_set_eq isHolding st.callers i
            (.holding d) (.done .timedOut) hg
          simp [isHolding] at hcount
          have hpos : 1 ≤ countHolding st.callers :=
            countP_pos_of_get? isHolding st.callers i (.holding d) hg rfl
          constructor
          · show countHolding (st.callers.set i (.done .timedOut)) ≤ 1
            rw [countHolding] at hpos hle ⊢
            omega
          · show false = true ↔
              countHolding (st.callers.set i (.done .timedOut)) = 1
            rw [countHolding] at hpos hle ⊢
            constructor
            · intro hx; cases hx
            · intro hx; exfalso; omega
        · cases h
      | done r => simp [hg] at h

lemma cRun_inv : ∀ (labs : List CLabel) (st st' : CorrState),
    cRun st labs = some st' → CorrInv st → CorrInv st' := by
  intro labs
  induction labs with
  | nil =>
    intro st st' h hI
    simp only [cRun] at h
    injection h with h
    subst h
    exact hI
  | cons lab rest ih =>
    intro st st' h hI
    simp only [cRun] at h
    cases happ : cApply st lab with
    | none => rw [happ] at h; cases h
    | some st1 =>
      rw [happ] at h
      exact ih st1 st' h (cApply_inv st lab st1 happ hI)

lemma initState_timesLE : TimesLE initState initState.clock :=
  ⟨Nat.le_refl 0, Nat.le_refl 0⟩

/-! ## Claim theorems -/

/-- C2 counterexample: on a successful open at time 5, the last-transmit
timestamp is set to 5, not zeroed (`self._last_tx_at = now` in
`_open_serial`), so the claim "the last-transmit timestamp is zeroed" is
false. -/
theorem C2_counterexample_last_tx_not_zeroed :
    (open_serial_ok initState 5).last_tx_at = 5 ∧
    (open_serial_ok initState 5).last_tx_at ≠ 0 := by
  constructor
  · rfl
  · decide

/-- C2 (amended): on every successful serial open, the rx/tx line counters
and the last-receive and last-heartbeat-ack timestamps are zeroed, the
liveness flag and throttle clock are cleared, the last error is cleared
and the port is marked open; the last-transmit timestamp is set to the
time of the open (not zero), so no value from a previous connection
generation is observable. -/
theorem C2_open_serial_resets_generation (s : ClientState) (now : Nat) :
    (open_serial_ok s now).rx_lines = 0 ∧
    (open_serial_ok s now).tx_lines = 0 ∧
    (open_serial_ok s now).last_rx_at = 0 ∧
    (open_serial_ok s now).last_alive_ack_at = 0 ∧
    (open_serial_ok s now).last_tx_at = now ∧
    (open_serial_ok s now).alive = false ∧
    (open_serial_ok s now).last_alive_check = 0 ∧
    (open_serial_ok s now).last_err = [] ∧
    (open_serial_ok s now).is_open = true := by
  refine ⟨rfl, rfl, rfl, rfl, rfl, rfl, rfl, rfl, rfl⟩

/-- C1: the code contradicts its own docstring. `send_cmd`'s docstring
documents `Raises: CommandError("ARGS") for "R,1,ARGS"` and
`CommandError("TIMEOUT")`, and the spec says every error condition yields
a typed failure distinguishable from success; but the blanket
`except Exception as e: print(e); return None` converts every raised
`CommandError` into the untyped return value `None`. Below: the `try:`
body does produce the typed Remote failure carrying `"ARGS"`, yet the
caller of `send_cmd` receives `None` — identical to what it receives for
a timeout, an empty command and a disconnected port. -/
theorem C1_typed_failures_swallowed_to_none :
    send_cmd_inner (open_serial_ok initState 1000)
        (String.toList "LCDTXT,0,0,Hello") .freed
        (.reply (String.toList "R,1,ARGS")) =
      (.error (String.toList "ARGS"),
       [String.toList "CMD,LCDTXT,0,0,Hello"]) ∧
    (send_cmd (open_serial_ok initState 1000)
        (String.toList "LCDTXT,0,0,Hello") .freed
        (.reply (String.toList "R,1,ARGS"))).1 = none ∧
    (send_cmd (open_serial_ok initState 1000)
        (String.toList "LCDTXT,0,0,Hello") .freed .noReply).1 = none ∧
    (send_cmd (open_serial_ok initState 1000) [] .freed .noReply).1 = none ∧
    (send_cmd initState (String.toList "LCDTXT,0,0,Hello") .freed
        .noReply).1 = none := by
  refine ⟨rfl, rfl, rfl, rfl, rfl⟩

/-- C3: in the correlator transition system, every state reachable by
valid steps has at most one caller holding the single-flight slot, and
`_cmd_waiting` is set exactly when one caller does — so a second caller
never overwrites an in-flight command; moreover, the only step moving a
waiting caller into the slot requires `_cmd_waiting` to be false (the
first command resolved), and the only other exit from the wait is the
Busy failure, enabled exactly when the slot is taken and the caller's own
timeout has elapsed. -/
theorem C3_single_flight :
    (∀ (labs : List CLabel) (st' : CorrState), cRun initCorr labs = some st' →
      countHolding st'.callers ≤ 1 ∧
      (st'.cmd_waiting = true ↔ countHolding st'.callers = 1)) ∧
    (∀ (st : CorrState) (i now : Nat) (st'' : CorrState),
      cApply st (.acquire i now) = some st'' → st.cmd_waiting = false) ∧
    (∀ (st : CorrState) (i now : Nat) (st'' : CorrState),
      cApply st (.busyFail i now) = some st'' →
      st.cmd_waiting = true ∧
      ∃ sw tmo, st.callers[i]? = some (.waitingSlot sw tmo) ∧
        tmo < now - sw) := by
  refine ⟨?_, ?_, ?_⟩
  · intro labs st' h
    exact cRun_inv labs initCorr st' h ⟨by decide, by decide⟩
  · intro st i now st'' h
    simp only [cApply] at h
    cases hg : st.callers[i]? with
    | none => simp [hg] at h
    | some ph =>
      cases ph with
      | waitingSlot sw tmo =>
        simp only [hg] at h
        split at h
        · assumption
        · cases h
      | holding d => simp [hg] at h
      | done r => simp [hg] at h
  · intro st i now st'' h
    simp only [cApply] at h
    cases hg : st.callers[i]? with
    | none => simp [hg] at h
    | some ph =>
      cases ph with
      | waitingSlot sw tmo =>
        simp only [hg] at h
        split at h
        · rename_i hcond
          exact ⟨hcond.1, sw, tmo, rfl, hcond.2⟩
        · cases h
      | holding d => simp [hg] at h
      | done r => simp [hg] at h

/-- C3 witness: two interleaved callers where the second acquires the slot
only after the first's reply resolves; the invariant holds in the final
state. -/
theorem C3_single_flight_witness :
    countHolding c3final.callers ≤ 1 ∧
    (c3final.cmd_waiting = true ↔ countHolding c3final.callers = 1) :=
  C3_single_flight.1 c3demo c3final (by decide)

/-- C4: a pending command fulfilled by a reply `R,0,<message>` returns the
(stripped) message text, or the placeholder `"OK"` when the message is
empty; in particular `R,0,OK` yields the success result `"OK"`. -/
theorem C4_success_reply_returns_message (s : ClientState) (line msg : List Char)
    (w : WaitOutcome) (hopen : s.is_open = true) (hline : line ≠ [])
    (hfree : s.cmd_waiting = false ∨ w = WaitOutcome.freed) :
    (send_cmd s line w (.reply (String.toList "R,0," ++ msg))).1 =
      some (if stripL msg = [] then String.toList "OK" else stripL msg) := by
  have hbusy : ¬(s.cmd_waiting = true ∧ w = .heldPastTimeout) := by
    rcases hfree with h | h
    · rintro ⟨h1, -⟩; rw [h] at h1; cases h1
    · rintro ⟨-, h2⟩; rw [h] at h2; cases h2
  have hR : String.toList "R,0," ++ msg = 'R' :: ',' :: '0' :: ',' :: msg := rfl
  have hinner : send_cmd_inner s line w (.reply ('R' :: ',' :: '0' :: ',' :: msg)) =
      (parse_reply ('R' :: ',' :: '0' :: ',' :: msg),
       [String.toList "CMD," ++ line]) := by
    unfold send_cmd_inner
    rw [if_neg hline, if_neg (by simp [hopen]), if_neg hbusy]
  rw [hR]
  simp [send_cmd, hinner, parse_reply_R0]

/-- C4 witness: `send_cmd("LCDTXT,0,0,Hello")` answered by `R,0,OK`
succeeds with result `"OK"`. -/
theorem C4_success_reply_witness :
    (send_cmd (open_serial_ok initState 1000)
        (String.toList "LCDTXT,0,0,Hello") .freed
        (.reply (String.toList "R,0," ++ String.toList "OK"))).1 =
      some (if stripL (String.toList "OK") = [] then String.toList "OK"
            else stripL (String.toList "OK")) :=
  C4_success_reply_returns_message (open_serial_ok initState 1000)
    (String.toList "LCDTXT,0,0,Hello") (String.toList "OK") .freed
    rfl (by decide) (Or.inl rfl)

/-- C7 counterexample: the line `L,0,SENS` is an L-line whose module field
(field 3) equals `"SENS"`, yet routing it publishes a single bare Log
event and no Sensor event, because the router's `len(parts) >= 4` guard
fails — refuting "every L-line whose module field equals SENS publishes a
Log event and additionally a Sensor event". -/
theorem C7_counterexample_short_sens_line :
    startsWithL (String.toList "L,") (String.toList "L,0,SENS") = true ∧
    (pySplit 4 (String.toList "L,0,SENS")).getD 2 [] = String.toList "SENS" ∧
    (route_line initState (String.toList "L,0,SENS") 5).2.length = 1 ∧
    ((route_line initState (String.toList "L,0,SENS") 5).2.countP
      (fun e => decide (e.type = EvType.sensor))) = 0 := by
  refine ⟨by decide, by decide, by decide, by decide⟩

/-- C7 (amended): routing `L,0,SENS,TEMP,25.5` publishes exactly a Log
event and a Sensor event with sensor name `TEMP` and value `25.5`;
generally, every L-line that splits (on the first four commas) into at
least 4 fields and whose module field equals `"SENS"` publishes exactly a
Log event followed by a Sensor event using field 4 as name and field 5 as
value (absent or empty fields become none); an L-line with fewer than 4
fields publishes only a bare Log event and no Sensor event. -/
theorem C7_sens_line_events (s : ClientState) (line : List Char) (now : Nat)
    (hL : startsWithL (String.toList "L,") line = true)
    (h4 : 4 ≤ (pySplit 4 line).length)
    (hm : (pySplit 4 line).getD 2 [] = String.toList "SENS") :
    (route_line s line now).1 = s ∧
    (route_line s line now).2.length = 2 ∧
    ((route_line s line now).2.getD 0 default).type = EvType.log ∧
    ((route_line s line now).2.getD 1 default).type = EvType.sensor ∧
    ((route_line s line now).2.getD 1 default).sensor_name =
      optOfStr (stripL ((pySplit 4 line).getD 3 [])) ∧
    ((route_line s line now).2.getD 1 default).sensor_value =
      optOfStr (if 4 < (pySplit 4 line).length
                then stripL ((pySplit 4 line).getD 4 []) else []) := by
  obtain ⟨t, rfl⟩ := startsWithL_two hL
  have hne : ('L' :: ',' :: t) ≠ pAliveLine := by
    intro hcontra
    have h2 : ('L' :: ',' :: t) =
        'P' :: ',' :: '0' :: ',' :: 'A' :: 'L' :: 'I' :: 'V' :: 'E' :: [] :=
      hcontra
    injection h2 with ha _
    exact absurd ha (by decide)
  have hui : ¬((pySplit 4 ('L' :: ',' :: t)).getD 2 [] = String.toList "UI" ∧
      4 ≤ (pySplit 4 ('L' :: ',' :: t)).length) := by
    rintro ⟨hc, -⟩
    rw [hm] at hc
    exact absurd hc (by decide)
  unfold route_line
  rw [if_neg hne, if_pos hL]
  simp only [lLineEvents]
  rw [if_pos h4]
  rw [if_pos (show (pySplit 4 ('L' :: ',' :: t)).getD 2 [] = String.toList "SENS" ∧
        4 ≤ (pySplit 4 ('L' :: ',' :: t)).length from ⟨hm, h4⟩)]
  rw [if_neg hui]
  exact ⟨trivial, rfl, rfl, rfl, rfl, rfl⟩

/-- C7 witness: the concrete line `L,0,SENS,TEMP,25.5` publishes exactly
the Log and Sensor events, with name `TEMP` and value `25.5`. -/
theorem C7_sens_line_events_witness :
    (route_line initState (String.toList "L,0,SENS,TEMP,25.5") 7).1 =
      initState ∧
    (route_line initState (String.toList "L,0,SENS,TEMP,25.5") 7).2.length = 2 ∧
    ((route_line initState (String.toList "L,0,SENS,TEMP,25.5") 7).2.getD 0
      default).type = EvType.log ∧
    ((route_line initState (String.toList "L,0,SENS,TEMP,25.5") 7).2.getD 1
      default).type = EvType.sensor ∧
    ((route_line initState (String.toList "L,0,SENS,TEMP,25.5") 7).2.getD 1
      default).sensor_name =
      optOfStr (stripL ((pySplit 4 (String.toList "L,0,SENS,TEMP,25.5")).getD 3 [])) ∧
    ((route_line initState (String.toList "L,0,SENS,TEMP,25.5") 7).2.getD 1
      default).sensor_value =
      optOfStr (if 4 < (pySplit 4 (String.toList "L,0,SENS,TEMP,25.5")).length
                then stripL ((pySplit 4 (String.toList "L,0,SENS,TEMP,25.5")).getD 4 [])
                else []) :=
  C7_sens_line_events initState (String.toList "L,0,SENS,TEMP,25.5") 7
    (by decide) (by decide) (by decide)

/-- C6: routing the exact line `P,0,ALIVE` only updates the
last-heartbeat-ack timestamp and publishes a single observational (raw)
event; in particular the pending-command slot and stored reply are
untouched, so the line never reaches the command correlator. -/
theorem C6_heartbeat_ack_routing (s : ClientState) (now : Nat) :
    route_line s pAliveLine now =
      ({ s with last_alive_ack_at := now },
       [{ type := .raw, ts := now, raw := pAliveLine }]) ∧
    (route_line s pAliveLine now).1.cmd_reply = s.cmd_reply ∧
    (route_line s pAliveLine now).1.cmd_waiting = s.cmd_waiting := by
  refine ⟨?_, rfl, rfl⟩
  rw [route_line, if_pos rfl]

/-- C9: in every writer-loop iteration the heartbeat-deadline check runs
before the queue poll, so when the heartbeat is due at the start of an
iteration it is written first — before the command dequeued in that
iteration and before every write of later iterations. -/
theorem C9_heartbeat_before_dequeue (cfg : Config) (ws : WriterState)
    (now : Nat) (dq : Option (List Char))
    (rest : List (Nat × Option (List Char))) (h : ws.next_ping ≤ now) :
    writer_run cfg ws ((now, dq) :: rest) =
      WriteItem.ping ::
        (cmdQueueOut dq ++
         writer_run cfg { next_ping := now + cfg.ping_interval } rest) := by
  simp [writer_run, writer_iter, if_pos h]

/-- C9 witness: a due heartbeat precedes the command dequeued in the same
iteration and the writes of the following iteration. -/
theorem C9_heartbeat_before_dequeue_witness :
    writer_run defaultCfg { next_ping := 1000 }
        ((1000, some (String.toList "CMD,A")) ::
         [(1500, some (String.toList "CMD,B"))]) =
      WriteItem.ping ::
        (cmdQueueOut (some (String.toList "CMD,A")) ++
         writer_run defaultCfg { next_ping := 1000 + defaultCfg.ping_interval }
           [(1500, some (String.toList "CMD,B"))]) :=
  C9_heartbeat_before_dequeue defaultCfg { next_ping := 1000 } 1000
    (some (String.toList "CMD,A")) [(1500, some (String.toList "CMD,B"))]
    (by decide)

/-- C10: the router stores a line into the pending-reply slot only when it
starts with `R,`, and every line starting with `R,` passes `send_cmd`'s
reply-shape check (`split(",", 2)` yields first part `"R"` and at least
two parts), so the `BAD_REPLY` branch is unreachable for replies that
arrived through the reader path. -/
theorem C10_bad_reply_unreachable_from_router :
    (∀ (s : ClientState) (line : List Char) (now : Nat),
      (route_line s line now).1.cmd_reply ≠ s.cmd_reply →
      startsWithL (String.toList "R,") line = true) ∧
    (∀ line : List Char, startsWithL (String.toList "R,") line = true →
      (pySplit 2 line).getD 0 [] = String.toList "R" ∧
      2 ≤ (pySplit 2 line).length ∧ replyBadShape line = false) := by
  constructor
  · intro s line now h
    unfold route_line at h
    split at h
    · exact absurd rfl h
    · split at h
      · exact absurd rfl h
      · split at h
        · assumption
        · exact absurd rfl h
  · intro line h
    obtain ⟨t, rfl⟩ := startsWithL_two h
    have hlen : 1 ≤ (pySplitAux 1 [] t).length := pySplitAux_length_pos 1 [] t
    refine ⟨by rw [pySplit_R_line]; rfl, ?_, ?_⟩
    · rw [pySplit_R_line]
      simp only [List.length_cons]
      omega
    · simp only [replyBadShape, pySplit_R_line, Bool.or_eq_false_iff,
        decide_eq_false_iff_not, not_lt, not_not, List.length_cons]
      refine ⟨by omega, ?_⟩
      simp [not_not]

/-- C5: in every state reachable by valid operation sequences (monotonic
positive clock; opens only while closed), the stored liveness flag is
`true` only if the port is open and a heartbeat ack was received this
generation within the configured window, measured at the last liveness
check; this is exactly the invariant every operation preserves. -/
theorem C5_alive_implies_open_and_recent_ack (cfg : Config)
    (ops : List (Op × Nat)) (hv : validOps cfg initState ops = true)
    (ha : (runOps cfg initState ops).1.alive = true) :
    (runOps cfg initState ops).1.is_open = true ∧
    0 < (runOps cfg initState ops).1.last_alive_ack_at ∧
    (runOps cfg initState ops).1.last_alive_check -
      (runOps cfg initState ops).1.last_alive_ack_at ≤ cfg.alive_timeout :=
  (runOps_inv cfg ops initState hv (initState_aliveInv cfg)
    initState_timesLE).1 ha

/-- C5 witness: after opening at t=1000 and reading a heartbeat ack at
t=1000 the computed liveness flag is true, and the invariant's
conclusion holds there. -/
theorem C5_alive_implies_open_witness :
    (runOps defaultCfg initState c5demo).1.is_open = true ∧
    0 < (runOps defaultCfg initState c5demo).1.last_alive_ack_at ∧
    (runOps defaultCfg initState c5demo).1.last_alive_check -
      (runOps defaultCfg initState c5demo).1.last_alive_ack_at ≤
      defaultCfg.alive_timeout :=
  C5_alive_implies_open_and_recent_ack defaultCfg c5demo (by decide) (by decide)

/-- C8: over every valid operation sequence from the initial state, the
LinkUp/LinkDown events published (by the periodic link-state check and by
`_close_serial`) strictly alternate starting from not-alive — so the
first link event is LinkUp, a LinkDown fires exactly once when liveness
flips false, and the same transition is never emitted twice in a row;
moreover `_close_serial` publishes LinkDown exactly once when the
connection was open and alive, and nothing otherwise. -/
theorem C8_link_events_alternate (cfg : Config) (ops : List (Op × Nat))
    (hv : validOps cfg initState ops = true) :
    altFromB false (linksOf (runOps cfg initState ops).2) = true ∧
    ∀ (s : ClientState) (now : Nat),
      linksOf (close_serial s now).2 =
        (if s.is_open && s.alive then [false] else []) := by
  constructor
  · exact (runOps_linkstep cfg ops initState hv (initState_aliveInv cfg)
      initState_timesLE).1
  · intro s now
    unfold close_serial
    cases h : s.is_open && s.alive <;> simp [h, linksOf, linkTag]

/-- C8 witness: open + heartbeat ack + close produces the alternating link
sequence LinkUp, LinkDown. -/
theorem C8_link_events_alternate_witness :
    altFromB false (linksOf (runOps defaultCfg initState c8demo).2) = true :=
  (C8_link_events_alternate defaultCfg c8demo (by decide)).1

/-- C10 witness: the concrete reader-delivered reply `R,0,OK` passes the
shape check. -/
theorem C10_bad_reply_unreachable_witness :
    (pySplit 2 (String.toList "R,0,OK")).getD 0 [] = String.toList "R" ∧
    2 ≤ (pySplit 2 (String.toList "R,0,OK")).length ∧
    replyBadShape (String.toList "R,0,OK") = false :=
  C10_bad_reply_unreachable_from_router.2 (String.toList "R,0,OK") (by decide)

end SmartRoom
